import Mathlib

/-!
Verification of the lifecycle, health, and configuration claims of the
`thisissoon/gokit` repository, as a shallow embedding in Lean.

The embedding follows the Go sources:
 * `http/http.go`   — HTTP `Server`, `New`, `Start`, `Stop`, option functions;
 * the HTTP health handler (`Server.Health` with `HealthOptions`);
 * `grpc/health.go` — gRPC `Server`, `New`, `Start`, `Stop`;
 * `config/config.go` — `ReadInConfig`, `bindEnvs`, `setEnv`, `lowerFirst`.

External collaborators (the Go standard library's `net/http`, the grpc-go
health side table, viper's env-name derivation) are modelled at their
documented boundary, and each such model carries a comment saying which
documented contract it reflects.
-/

namespace Gokit

/-- Errors that flow through the lifecycle coordinator.  `errServerClosed`
models `http.ErrServerClosed`, `errServerStopped` models
`grpc.ErrServerStopped`, `deadlineExceeded` models `context.DeadlineExceeded`;
the remaining constructors carry the message of an arbitrary error value. -/
inductive GoError where
  | errServerClosed
  | errServerStopped
  | deadlineExceeded
  | bindErr (msg : String)
  | serveErr (msg : String)
  | optErr (msg : String)
  | readErr (msg : String)
  | unmarshalErr (msg : String)
  deriving DecidableEq, Repr

/-- One nanosecond, the unit of Go `time.Duration`. -/
def nanosecond : Nat := 1

/-- `time.Second` in nanoseconds. -/
def second : Nat := 1000000000

/-! ## HTTP serve task (`http/http.go`, `Server.Start`, lines 99–124)

`Start` spawns one goroutine that runs

```
s.Running = true
err := s.Srv.ListenAndServe()
switch err {
case http.ErrServerClosed: s.Running = false; ...
case nil:
default: errC <- err
}
close(errC)
```

`ListenAndServe` (net/http, documented contract) first binds the listener and
only then runs the accept loop; it returns the bind error if the bind fails,
`http.ErrServerClosed` after `Shutdown`/`Close`, and otherwise the accept-loop
error.  `httpServeOutcome` enumerates those outcomes; `retNil` keeps the
switch's `nil` arm even though `ListenAndServe` never actually returns `nil`. -/
inductive ServeOutcome where
  | bindFail (msg : String)
  | closedByShutdown
  | runtimeFail (msg : String)
  | retNil
  deriving DecidableEq, Repr

/-- The value `s.Srv.ListenAndServe()` returns for each outcome. -/
def listenAndServeRes : ServeOutcome → Option GoError
  | .bindFail m => some (.bindErr m)
  | .closedByShutdown => some .errServerClosed
  | .runtimeFail m => some (.serveErr m)
  | .retNil => none

/-- Observable events of the HTTP serve goroutine, in program order. -/
inductive HEvent where
  | setRunning (b : Bool)
  | bindAttempt
  | bindOk
  | acceptLoop
  | sendErr (e : GoError)
  | closeChan
  deriving DecidableEq, Repr

/-- The tail of the goroutine after `ListenAndServe` returns: the `switch`
on the returned error followed by `close(errC)`. -/
def serveTaskTail (res : Option GoError) : List HEvent :=
  (match res with
   | some e => if e = GoError.errServerClosed then [HEvent.setRunning false] else [HEvent.sendErr e]
   | none => []) ++ [HEvent.closeChan]

/-- The full event trace of the goroutine spawned by the HTTP `Server.Start`:
`s.Running = true` is executed first, then `ListenAndServe` attempts the bind
(reaching the accept loop only when the bind succeeds), then the switch runs. -/
def httpServeTaskTrace (o : ServeOutcome) : List HEvent :=
  [HEvent.setRunning true, HEvent.bindAttempt] ++
    (match o with
     | .bindFail _ => []
     | _ => [HEvent.bindOk, HEvent.acceptLoop]) ++
    serveTaskTail (listenAndServeRes o)

/-- Value of `s.Running` after a prefix of the trace; `New` leaves the zero
value `false`. -/
def runningAfter (tr : List HEvent) : Bool :=
  tr.foldl (fun r e => match e with | HEvent.setRunning b => b | _ => r) false

/-- Values sent on `errC` during a trace, in order. -/
def sentOnErrC (tr : List HEvent) : List GoError :=
  tr.filterMap (fun e => match e with | HEvent.sendErr x => some x | _ => none)

/-- Capacity of the HTTP error channel: `errC := make(chan error, 1)`. -/
def httpErrCCapacity : Nat := 1

/-- What `case err := <-errC` receives once the goroutine is done: the sent
value if there was a send, else the zero value `nil` from the closed channel. -/
def httpChanRecv (o : ServeOutcome) : Option GoError :=
  match sentOnErrC (httpServeTaskTrace o) with
  | [] => none
  | e :: _ => some e

/-! ## The racing phase of `Start` -/

/-- Which arm of the two-way `select` in `Start` fires first. -/
inductive RaceWinner where
  | err
  | cancel
  deriving DecidableEq, Repr

/-- Observations about one call to `Start`. -/
structure StartObs where
  result : Option GoError
  spawned : Bool
  stopInvoked : Bool
  enteredRace : Bool
  deriving DecidableEq, Repr

/-- HTTP `Server.Start` (`http/http.go` lines 99–124): the goroutine is always
spawned and the select always runs; `case err := <-errC` returns the received
value without any shutdown, `case <-ctx.Done()` returns `s.Stop()`. -/
def httpStart (o : ServeOutcome) (w : RaceWinner) (stopResult : Option GoError) : StartObs :=
  match w with
  | .err => { result := httpChanRecv o, spawned := true, stopInvoked := false, enteredRace := true }
  | .cancel => { result := stopResult, spawned := true, stopInvoked := true, enteredRace := true }

/-- Outcome of the synchronous `net.Listen` in the gRPC `Server.Start`. -/
inductive BindOutcome where
  | ok
  | fail (msg : String)
  deriving DecidableEq, Repr

/-- gRPC `Server.Start` (`grpc/health.go` lines 181–211): `net.Listen` runs
synchronously and its error is returned before any goroutine is spawned; on
success one goroutine is spawned and the select races `s.errC` against
`s.sigC`; `case err := <-s.errC` returns the received value, while
`case sig := <-s.sigC` logs and returns `nil` — it does not call `Stop`. -/
def grpcStart (b : BindOutcome) (w : RaceWinner) (chanVal : Option GoError) : StartObs :=
  match b with
  | .fail m =>
      { result := some (.bindErr m), spawned := false, stopInvoked := false, enteredRace := false }
  | .ok =>
      match w with
      | .err => { result := chanVal, spawned := true, stopInvoked := false, enteredRace := true }
      | .cancel => { result := none, spawned := true, stopInvoked := false, enteredRace := true }

/-! ## gRPC serve goroutine and error channel (`grpc/health.go`)

`New` (lines 228–241) makes `errC := make(chan error)` — an unbuffered
channel — and `Start` spawns `go func() { s.errC <- s.srv.Serve(listener) }()`:
whatever `Serve` returns (a runtime error, `grpc.ErrServerStopped`, or `nil`
after `GracefulStop`) is sent unconditionally, and the channel is never
closed. -/

/-- Observable events of the gRPC serve goroutine. -/
inductive GrpcEvent where
  | sendChan (e : Option GoError)
  | closeChan
  deriving DecidableEq, Repr

/-- Trace of `go func() { s.errC <- s.srv.Serve(listener) }()`. -/
def grpcServeTaskTrace (res : Option GoError) : List GrpcEvent :=
  [GrpcEvent.sendChan res]

/-- Capacity of the gRPC error channel: `make(chan error)` is unbuffered. -/
def grpcErrCCapacity : Nat := 0

/-! ## HTTP health handler (`Server.Health` with `HealthOptions`)

`Health` marshals `healthResponse{App, Version, Serving}` with
`encoding/json` and writes status 200 when `s.Running` and 503 otherwise,
with `Content-Type: application/json`. -/

/-- `HealthOptions` from the HTTP package. -/
structure HealthOptions where
  path : String := ""
  appName : String := ""
  version : String := ""
  deriving DecidableEq, Repr

/-- Escape of one character inside a JSON string, following `encoding/json`
with its default HTML escaping (quotes, backslash, `\n`/`\r`/`\t`, `<`, `>`,
`&`, and other control characters as `\u00XX`; the U+2028/U+2029 and invalid
UTF-8 cases never arise for the inputs in this development). -/
def jsonEscapeChar (c : Char) : String :=
  if c = '"' then "\\\""
  else if c = '\\' then "\\\\"
  else if c = '\n' then "\\n"
  else if c = '\r' then "\\r"
  else if c = '\t' then "\\t"
  else if c = '<' then "\\u003c"
  else if c = '>' then "\\u003e"
  else if c = '&' then "\\u0026"
  else if c.toNat < 32 then
    "\\u00" ++ String.mk [Nat.digitChar (c.toNat / 16), Nat.digitChar (c.toNat % 16)]
  else String.mk [c]

/-- A JSON string literal as `encoding/json` emits it. -/
def jsonQuote (s : String) : String :=
  "\"" ++ String.join (s.data.map jsonEscapeChar) ++ "\""

/-- A JSON boolean as `encoding/json` emits it. -/
def jsonBool (b : Bool) : String :=
  if b then "true" else "false"

/-- Body the health handler writes: `json.Marshal` of
`healthResponse{App, Version, Serving}` — an object whose keys `app`,
`version`, `serving` appear in struct-field order with no spaces. -/
def healthBody (app version : String) (serving : Bool) : String :=
  "\x7b\"app\":" ++ jsonQuote app ++ ",\"version\":" ++ jsonQuote version ++
    ",\"serving\":" ++ jsonBool serving ++ "\x7d"

/-- An HTTP response as observed by the client of the health endpoint. -/
structure HTTPResponse where
  status : Nat
  contentType : String
  body : String
  deriving DecidableEq, Repr

/-- The response the handler returned by `Server.Health(h)` writes for any
request, given the value of `s.Running` at request time. -/
def healthHandlerResponse (h : HealthOptions) (running : Bool) : HTTPResponse :=
  { status := if running then 200 else 503
    contentType := "application/json"
    body := healthBody h.appName h.version running }

/-! ## HTTP server construction (`http/http.go`, `New`, lines 37–57) -/

/-- Handlers the package registers on a mux: the health handler, or an
arbitrary caller-supplied `http.Handler` (opaque to this package, identified
by a tag). -/
inductive BaseHandler where
  | health (h : HealthOptions)
  | user (id : Nat)
  deriving DecidableEq, Repr

/-- A handler installed as `s.Srv.Handler`: either a plain handler or a
`http.ServeMux` with its registered patterns.  `New` only ever nests one
level of mux, so the routes carry plain handlers. -/
inductive Handler where
  | base (h : BaseHandler)
  | mux (routes : List (String × BaseHandler))
  deriving DecidableEq, Repr

/-- The fields of the HTTP `Server` struct that the claims observe. -/
structure Server where
  addr : String
  handler : Option BaseHandler
  srvHandler : Option Handler
  running : Bool
  stopTimeout : Nat
  healthOpt : HealthOptions
  deriving DecidableEq, Repr

/-- The option functions of the HTTP package.  `withLogger` only replaces the
logger, which this embedding does not observe. -/
inductive HTTPOption where
  | withAddr (a : String)
  | withLogger
  | withHandler (h : BaseHandler)
  | withHealth (ho : HealthOptions)
  | withStopTimeout (d : Nat)
  deriving DecidableEq, Repr

/-- Application of one option function to the server under construction. -/
def applyOpt (s : Server) : HTTPOption → Server
  | .withAddr a => { s with addr := a }
  | .withLogger => s
  | .withHandler h => { s with handler := some h }
  | .withHealth ho => { s with healthOpt := ho }
  | .withStopTimeout d => { s with stopTimeout := d }

/-- The struct literal at the top of `New`: `Addr: ":5000"`,
`stopTimeout: time.Second * 10`, all other fields zero. -/
def initServer : Server :=
  { addr := ":5000", handler := none, srvHandler := none, running := false
    stopTimeout := 10 * second, healthOpt := {} }

/-- The server after the option loop in `New`. -/
def foldOpts (opts : List HTTPOption) : Server :=
  opts.foldl applyOpt initServer

/-- `http.ServeMux.Handle` (net/http, documented contract): panics on a nil
handler (`"http: nil handler"`) and on a second registration of the same
pattern; otherwise records the pattern. -/
def muxHandle (routes : List (String × BaseHandler)) (pat : String) (h : Option BaseHandler) :
    Except String (List (String × BaseHandler)) :=
  match h with
  | none => Except.error "http: nil handler"
  | some hv =>
      if routes.any (fun r => r.1 = pat) then Except.error "http: multiple registrations"
      else Except.ok (routes ++ [(pat, hv)])

/-- `New` from `http/http.go`: applies the options, sets
`s.Srv.Handler = s.handler`, substitutes the default health handler (app name
`"kit"`) when no handler was supplied, and, when a health path is configured,
builds a mux with `s.handler` at `"/"` — panicking there if `s.handler` is
nil — and the health handler at the configured path.  A panic is modelled as
`Except.error` carrying the panic message. -/
def New (opts : List HTTPOption) : Except String Server :=
  let s := foldOpts opts
  let s := { s with srvHandler := s.handler.map Handler.base }
  let s := if s.handler = none
    then { s with srvHandler := some (.base (.health { appName := "kit" })) }
    else s
  if s.healthOpt.path ≠ "" then
    match muxHandle [] "/" s.handler with
    | Except.error e => Except.error e
    | Except.ok r1 =>
        match muxHandle r1 s.healthOpt.path (some (.health s.healthOpt)) with
        | Except.error e => Except.error e
        | Except.ok r2 => Except.ok { s with srvHandler := some (.mux r2) }
  else Except.ok s

/-- Whether the first character list starts the second. -/
def charsLeadIn : List Char → List Char → Bool
  | [], _ => true
  | _ :: _, [] => false
  | a :: as, b :: bs => a = b && charsLeadIn as bs

/-- Pattern match of `http.ServeMux` (documented contract): a pattern ending
in a slash matches every path it starts, any other pattern matches exactly. -/
def patternMatches (pat path : String) : Bool :=
  match pat.data.getLast? with
  | some '/' => charsLeadIn pat.data path.data
  | _ => pat = path

/-- Route resolution of `http.ServeMux` (documented contract): the matching
pattern with the longest name wins. -/
def serveMuxResolve (routes : List (String × BaseHandler)) (path : String) : Option BaseHandler :=
  (routes.filter (fun r => patternMatches r.1 path)).foldl
    (fun best r =>
      match best with
      | none => some r
      | some b => if r.1.length > b.1.length then some r else some b)
    none
  |>.map (fun r => r.2)

/-! ## `Stop` (`http/http.go` lines 127–135; `grpc/health.go` lines 214–224)

The HTTP `Stop` builds `context.WithTimeout(Background(), s.stopTimeout)` and
returns `s.Srv.Shutdown(ctx)`.  `net/http`'s documented `Shutdown` contract:
it blocks until the active connections drain or the context expires,
returning `nil` (or the listener-close error) on a completed drain and the
context's error — here folded with any underlying forced-close error — once
the deadline passes.  The gRPC `Stop` calls `srv.GracefulStop()`, which
blocks until all pending RPCs complete, with no deadline at all.

Durations are nanoseconds; `drainTime` is how long the in-flight work needs,
`closeErr` any error of the underlying forced close. -/

/-- Model of `net/http` `Server.Shutdown` under a context with deadline
`deadline`: the pair is (time blocked, returned error). -/
def httpShutdown (deadline drainTime : Nat) (closeErr : Option GoError) : Nat × Option GoError :=
  if drainTime ≤ deadline then (drainTime, none)
  else (deadline, some (closeErr.getD GoError.deadlineExceeded))

/-- HTTP `Server.Stop`: the deadline handed to `Shutdown` is exactly
`s.stopTimeout`. -/
def httpStop (s : Server) (drainTime : Nat) (closeErr : Option GoError) : Nat × Option GoError :=
  httpShutdown s.stopTimeout drainTime closeErr

/-- gRPC `Server.Stop`: `GracefulStop` blocks for the whole drain, unbounded,
and the method then returns `nil`. -/
def grpcStop (drainTime : Nat) : Nat × Option GoError :=
  (drainTime, none)

/-! ## gRPC server construction and start ordering (`grpc/health.go`)

`New` (lines 228–241) fills in `addr: ":5000"`, an unbuffered `errC`, and the
service register list.  A `RegisterServiceFunc` registers one service and
returns its name; the embedding keeps only the returned names, in register
order. -/

/-- The fields of the gRPC `Server` struct that the claims observe. -/
structure GrpcServer where
  addr : String
  services : List String
  errCCapacity : Nat
  deriving DecidableEq, Repr

/-- gRPC `New` with a list of service registers (names they return). -/
def grpcNew (services : List String) : GrpcServer :=
  { addr := ":5000", services := services, errCCapacity := 0 }

/-- The serving statuses of the gRPC health protocol. -/
inductive ServingStatus where
  | serving
  | notServing
  | unknown
  deriving DecidableEq, Repr

/-- The grpc-go health side table (`health.NewServer()`): a Go map from
service name to status, modelled as a function.  `SetServingStatus` is the
map assignment. -/
def setServingStatus (m : String → Option ServingStatus) (name : String) (st : ServingStatus) :
    String → Option ServingStatus :=
  fun k => if k = name then some st else m k

/-- Result of the health `Check(service)` RPC. -/
inductive CheckResult where
  | status (st : ServingStatus)
  | notFound
  deriving DecidableEq, Repr

/-- grpc-go health server `Check` (documented contract): the stored status
when the service name is in the table, a NotFound error otherwise. -/
def healthCheck (m : String → Option ServingStatus) (svc : String) : CheckResult :=
  match m svc with
  | some st => CheckResult.status st
  | none => CheckResult.notFound

/-- Observable events of the success path of the gRPC `Server.Start`
(lines 181–201), in program order. -/
inductive GEvent where
  | listenBind
  | registerService (name : String)
  | markServing (name : String)
  | registerHealthServer
  | serveStart
  deriving DecidableEq, Repr

/-- Event trace of the success path of the gRPC `Server.Start`: bind the
listener, then for each register call it and mark the returned name SERVING,
then register the health server, then hand the listener to `Serve`. -/
def grpcStartTrace (services : List String) : List GEvent :=
  [GEvent.listenBind] ++
    (services.flatMap (fun n => [GEvent.registerService n, GEvent.markServing n])) ++
    [GEvent.registerHealthServer] ++ [GEvent.serveStart]

/-- The health table after the registration loop of `Start` has run, starting
from the fresh (empty) `health.NewServer()` table. -/
def startHealthTable (services : List String) : String → Option ServingStatus :=
  services.foldl (fun m n => setServingStatus m n ServingStatus.serving) (fun _ => none)

/-! ## Configuration (`config/config.go`)

`ReadInConfig` (lines 187–205) applies the option functions in order and
stops at the first failing one, then calls `bindEnvs`, then switches on the
type of `v.ReadInConfig()`'s error — `nil` and
`viper.ConfigFileNotFoundError` fall through, anything else is returned —
and finally returns `v.Unmarshal(c)`. -/

/-- Result of `v.ReadInConfig()` as the `switch` classifies it. -/
inductive FileReadResult where
  | ok
  | configFileNotFound
  | failed (e : GoError)
  deriving DecidableEq, Repr

/-- The option loop: the result of the first failing option, if any. -/
def runOpts : List (Option GoError) → Option GoError
  | [] => none
  | none :: rest => runOpts rest
  | some e :: _ => some e

/-- `ReadInConfig`, with each delegated step summarised by its result. -/
def ReadInConfig (optResults : List (Option GoError)) (bindEnvsResult : Option GoError)
    (fileRead : FileReadResult) (unmarshalResult : Option GoError) : Option GoError :=
  match runOpts optResults with
  | some e => some e
  | none =>
      match bindEnvsResult with
      | some e => some e
      | none =>
          match fileRead with
          | FileReadResult.failed e => some e
          | _ => unmarshalResult

/-- `lowerFirst` from `config/config.go`: lowercase the first character.  (Go
indexes `a[0]` and would panic on the empty string; struct field names are
never empty, and the total Lean version returns `""` there.) -/
def lowerFirst (s : String) : String :=
  match s.data with
  | [] => ""
  | c :: cs => String.mk (c.toLower :: cs)

/-- The key `bindEnvs` uses for one struct field: the `mapstructure` tag when
non-empty, else the field name with its first letter lowercased. -/
def fieldKey (name tag : String) : String :=
  if tag = "" then lowerFirst name else tag

mutual

/-- A Go struct field as `bindEnvs` reflects on it: a name, a `mapstructure`
tag (empty when absent), and — for fields of struct kind — nested fields. -/
inductive GoField where
  | leaf (name tag : String)
  | node (name tag : String) (fields : GoFields)

/-- The field list of a Go struct. -/
inductive GoFields where
  | nil
  | cons (f : GoField) (fs : GoFields)

end

mutual

/-- `bindEnvs` on a single field, carrying the accumulated `parts`: a leaf
binds `strings.Join(append(parts, tv), ".")`; a struct field recurses with
its key appended to `parts`. -/
def bindEnvsField (parts : List String) : GoField → List String
  | .leaf n t => [String.intercalate "." (parts ++ [fieldKey n t])]
  | .node n t fs => bindEnvsFields (parts ++ [fieldKey n t]) fs

/-- `bindEnvs` over a field list: the loop body, in field order. -/
def bindEnvsFields (parts : List String) : GoFields → List String
  | .nil => []
  | .cons f fs => bindEnvsField parts f ++ bindEnvsFields parts fs

end

mutual

/-- The leaf paths of one field: for every leaf reachable from it, the list
of (name, tag) pairs along the way.  This is the spec-side view of the
struct: a set of field paths to be turned into keys. -/
def leafPathsField : GoField → List (List (String × String))
  | .leaf n t => [[(n, t)]]
  | .node n t fs => (leafPathsFields fs).map (fun p => (n, t) :: p)

/-- The leaf paths of a field list. -/
def leafPathsFields : GoFields → List (List (String × String))
  | .nil => []
  | .cons f fs => leafPathsField f ++ leafPathsFields fs

end

/-- Modelled from the spec: the key of a field path per the spec's words —
"an explicit override tag when present, else the lowercased-first-letter
field name", components "joined with dots". -/
def specKeyOfPath (p : List (String × String)) : String :=
  String.intercalate "." (p.map (fun nt => if nt.2 = "" then lowerFirst nt.1 else nt.2))

/-- Go `strings.ReplaceAll(name, "-", "")` as `setEnv` calls it. -/
def stripHyphens (s : String) : String :=
  String.mk (s.data.filter (fun c => c ≠ '-'))

/-- The replacer `strings.NewReplacer(".", "_")` that `setEnv` installs. -/
def dotsToUnderscores (s : String) : String :=
  String.mk (s.data.map (fun c => if c = '.' then '_' else c))

/-- Go `strings.ToUpper` on ASCII identifiers. -/
def goToUpper (s : String) : String :=
  String.mk (s.data.map Char.toUpper)

/-- `setEnv` from `config/config.go`: the env prefix is the name with its
hyphens removed. -/
def envPrefixOf (name : String) : String :=
  stripHyphens name

/-- Environment variable consulted for a bound key (viper's documented
behaviour with an env prefix and the installed key replacer): uppercase
`prefix_key`, then apply the `"." → "_"` replacer. -/
def viperEnvVarName (name key : String) : String :=
  dotsToUnderscores (goToUpper (envPrefixOf name ++ "_" ++ key))

/-- The `Config` struct of the repository's own config test: a `Log` struct
with plain fields and two `mapstructure`-tagged fields. -/
def testConfigFields : GoFields :=
  GoFields.cons
    (GoField.node "Log" ""
      (GoFields.cons (GoField.leaf "Verbose" "")
        (GoFields.cons (GoField.leaf "Console" "")
          (GoFields.cons (GoField.leaf "Level" "")
            (GoFields.cons (GoField.leaf "Name" "")
              (GoFields.cons (GoField.leaf "Custom" "customTag")
                (GoFields.cons (GoField.leaf "Env" "envTest") GoFields.nil)))))))
    GoFields.nil

/-! ## A small JSON model, used to state what the health body is -/

/-- Primitive JSON values occurring in the health payload. -/
inductive JPrim where
  | jstr (s : String)
  | jbool (b : Bool)
  deriving DecidableEq, Repr

/-- Rendering of a primitive JSON value. -/
def renderPrim : JPrim → String
  | .jstr s => jsonQuote s
  | .jbool b => jsonBool b

/-- Comma-join of rendered members. -/
def joinComma : List String → String
  | [] => ""
  | [x] => x
  | x :: xs => x ++ "," ++ joinComma xs

/-- Rendering of a flat JSON object: brace-wrapped comma-joined
`"key":value` members, keys in the given order, no whitespace. -/
def renderObj (fields : List (String × JPrim)) : String :=
  "\x7b" ++ joinComma (fields.map (fun f => jsonQuote f.1 ++ ":" ++ renderPrim f.2)) ++ "\x7d"

/-! ## Theorems -/

/-- Splitting `String.append` into list appends. -/
theorem strDataAppend (a b : String) : (a ++ b).data = a.data ++ b.data := by
  cases a
  cases b
  rfl

/-- Strings with the same characters are equal. -/
theorem strOfDataEq (a b : String) (h : a.data = b.data) : a = b := by
  cases a
  cases b
  exact congrArg String.mk h

/-- Unfolding of `String.mk`. -/
theorem dataMk (l : List Char) : (String.mk l).data = l := rfl

/-- C1 (amended): in the HTTP variant the background serve task executes
`s.Running = true` strictly before `ListenAndServe` attempts the listener
bind, and the final value of the flag is `false` exactly when the transport
returned the `http.ErrServerClosed` sentinel — so `running` can be observed
`true` before the bind succeeds, and a failed bind leaves it `true`. -/
theorem C1_running_set_before_bind (o : ServeOutcome) :
    (httpServeTaskTrace o).take 2 = [HEvent.setRunning true, HEvent.bindAttempt]
    ∧ runningAfter (httpServeTaskTrace o) =
        (if listenAndServeRes o = some GoError.errServerClosed then false else true) := by
  cases o <;>
    simp [httpServeTaskTrace, serveTaskTail, listenAndServeRes, runningAfter]

/-- C1 (counterexample): on a failed bind the health probe's flag is already
`true` after the very first step of the serve task, the trace contains no
successful bind, and the flag stays `true` at the end — against the claim
that `running == true` is observed only after a successful bind and that a
failed bind leaves it `false` forever. -/
theorem C1_claim_false_at_failed_bind :
    runningAfter ((httpServeTaskTrace (ServeOutcome.bindFail "listen")).take 1) = true
    ∧ HEvent.bindOk ∉ httpServeTaskTrace (ServeOutcome.bindFail "listen")
    ∧ runningAfter (httpServeTaskTrace (ServeOutcome.bindFail "listen")) = true := by
  decide

/-- C2 (amended): once the racing phase is entered, `Start` returns by
exactly one of the two select arms.  On the error arm both variants return
the received channel value and neither attempts a shutdown.  On the
cancellation arm the HTTP variant invokes `Stop` and returns its result,
while the gRPC variant returns `nil` without invoking `Stop`. -/
theorem C2_race_paths (o : ServeOutcome) (stopR v : Option GoError) :
    (httpStart o RaceWinner.err stopR).result = httpChanRecv o
    ∧ (httpStart o RaceWinner.err stopR).stopInvoked = false
    ∧ (httpStart o RaceWinner.cancel stopR).result = stopR
    ∧ (httpStart o RaceWinner.cancel stopR).stopInvoked = true
    ∧ (grpcStart BindOutcome.ok RaceWinner.err v).result = v
    ∧ (grpcStart BindOutcome.ok RaceWinner.err v).stopInvoked = false
    ∧ (grpcStart BindOutcome.ok RaceWinner.cancel v).result = none
    ∧ (grpcStart BindOutcome.ok RaceWinner.cancel v).stopInvoked = false := by
  simp [httpStart, grpcStart]

/-- C2 (counterexample): in the gRPC variant the cancellation arm returns
`nil` without invoking `Stop`, against the claim that every `Start` invokes
`Stop` when the cancellation source fires. -/
theorem C2_claim_false_grpc_cancel :
    (grpcStart BindOutcome.ok RaceWinner.cancel none).stopInvoked = false
    ∧ (grpcStart BindOutcome.ok RaceWinner.cancel none).result = none := by
  decide

/-- C3 (amended): in the gRPC variant a failed bind is returned synchronously
with no goroutine spawned and without entering the racing phase; in the HTTP
variant the bind happens inside the always-spawned background task, the bind
error reaches the caller through the error channel in the racing phase, and
`Running` has already been set `true`. -/
theorem C3_bind_failure (m : String) (w : RaceWinner) (v stopR : Option GoError) :
    grpcStart (BindOutcome.fail m) w v =
      { result := some (GoError.bindErr m), spawned := false
        stopInvoked := false, enteredRace := false }
    ∧ (httpStart (ServeOutcome.bindFail m) RaceWinner.err stopR).result
        = some (GoError.bindErr m)
    ∧ (httpStart (ServeOutcome.bindFail m) RaceWinner.err stopR).spawned = true
    ∧ (httpStart (ServeOutcome.bindFail m) RaceWinner.err stopR).enteredRace = true
    ∧ runningAfter (httpServeTaskTrace (ServeOutcome.bindFail m)) = true := by
  cases w <;>
    simp [grpcStart, httpStart, httpChanRecv, sentOnErrC, httpServeTaskTrace,
      serveTaskTail, listenAndServeRes, runningAfter]

/-- C3 (counterexample): for an HTTP server whose address is already bound,
the serve task is spawned, the state machine enters the racing phase, and
`Running` becomes `true` — against the claim that a failed bind spawns no
background task, keeps `running` false, and never enters the racing phase. -/
theorem C3_claim_false_http_bind :
    (httpStart (ServeOutcome.bindFail "addr in use") RaceWinner.err none).spawned = true
    ∧ (httpStart (ServeOutcome.bindFail "addr in use") RaceWinner.err none).enteredRace = true
    ∧ runningAfter (httpServeTaskTrace (ServeOutcome.bindFail "addr in use")) = true := by
  decide

/-- C4 (amended): the HTTP `Stop` is bounded — it hands `Shutdown` a context
whose deadline is exactly `stopTimeout` (default 10 seconds, set by `New`),
blocks at most that long, and on expiry returns the underlying forced-close
error; the gRPC `Stop` calls `GracefulStop` with no deadline and blocks for
the whole drain, however long. -/
theorem C4_stop_timeout_bound (s : Server) (d t : Nat) (e : GoError) (c : Option GoError)
    (hexp : ¬ d ≤ t) :
    (httpStop s d c).1 ≤ s.stopTimeout
    ∧ Except.map (fun sv : Server => sv.stopTimeout) (New []) = Except.ok (10 * second)
    ∧ (httpShutdown t d (some e)).2 = some e
    ∧ grpcStop d = (d, none) := by
  refine ⟨?_, rfl, ?_, rfl⟩
  · simp only [httpStop, httpShutdown]
    split <;> omega
  · simp [httpShutdown, hexp]

/-- C4 (witness): instance of the bound at a 20-second drain against the
10-second default timeout. -/
theorem C4_stop_timeout_bound_witness :
    (httpStop initServer (20 * second) none).1 ≤ initServer.stopTimeout
    ∧ Except.map (fun sv : Server => sv.stopTimeout) (New []) = Except.ok (10 * second)
    ∧ (httpShutdown (10 * second) (20 * second) (some GoError.errServerClosed)).2
        = some GoError.errServerClosed
    ∧ grpcStop (20 * second) = (20 * second, none) :=
  C4_stop_timeout_bound initServer (20 * second) (10 * second) GoError.errServerClosed none
    (by decide)

/-- C4 (counterexample): a gRPC `Stop` whose in-flight work needs 20 seconds
blocks for 20 seconds, past the claimed 10-second default bound — the gRPC
variant has no stop timeout at all. -/
theorem C4_claim_false_grpc_unbounded :
    (grpcStop (20 * second)).1 > 10 * second := by
  decide

/-- C7 (amended): the HTTP variant behaves as claimed — the channel is
single-slot, at most one error is sent, `http.ErrServerClosed` is never
forwarded (the task resets `Running` instead), any other non-nil serve error
is forwarded, and the channel is closed last.  The gRPC variant's channel is
unbuffered, the serve task forwards `Serve`'s result unconditionally
(sentinel and `nil` included), and the channel is never closed. -/
theorem C7_error_channel (o : ServeOutcome) (res : Option GoError) :
    httpErrCCapacity = 1
    ∧ (sentOnErrC (httpServeTaskTrace o)).length ≤ 1
    ∧ GoError.errServerClosed ∉ sentOnErrC (httpServeTaskTrace o)
    ∧ sentOnErrC (httpServeTaskTrace o) =
        (match listenAndServeRes o with
         | some e => if e = GoError.errServerClosed then [] else [e]
         | none => [])
    ∧ (httpServeTaskTrace o).getLast? = some HEvent.closeChan
    ∧ grpcErrCCapacity = 0
    ∧ grpcServeTaskTrace res = [GrpcEvent.sendChan res]
    ∧ GrpcEvent.closeChan ∉ grpcServeTaskTrace res := by
  cases o <;>
    simp [httpServeTaskTrace, serveTaskTail, listenAndServeRes, sentOnErrC,
      httpErrCCapacity, grpcErrCCapacity, grpcServeTaskTrace]

/-- C7 (counterexample): the gRPC serve task forwards the well-known stopped
sentinel onto an unbuffered channel and never closes it — against the claim
that the channel is single-slot, never carries the closed-by-shutdown
sentinel, and is closed after the first send. -/
theorem C7_claim_false_grpc_channel :
    grpcServeTaskTrace (some GoError.errServerStopped)
      = [GrpcEvent.sendChan (some GoError.errServerStopped)]
    ∧ GrpcEvent.closeChan ∉ grpcServeTaskTrace (some GoError.errServerStopped)
    ∧ grpcErrCCapacity = 0 := by
  decide

/-- Each service register contributes exactly one `markServing` event for its
name, so the registration loop marks a name as often as it occurs. -/
theorem markServing_count_flatMap (services : List String) (name : String) :
    ((services.flatMap (fun n => [GEvent.registerService n, GEvent.markServing n]))).count
        (GEvent.markServing name) = services.count name := by
  induction services with
  | nil => simp
  | cons n rest ih =>
      by_cases h : n = name
      · subst h
        simp [List.count_cons, ih]
      · simp [List.count_cons, ih, h]

/-- The registration loop emits no `serveStart` event. -/
theorem serveStart_count_flatMap (services : List String) :
    ((services.flatMap (fun n => [GEvent.registerService n, GEvent.markServing n]))).count
        GEvent.serveStart = 0 := by
  induction services with
  | nil => simp
  | cons n rest ih => simp [List.count_cons, ih]

/-- The lookup in the health table built by the registration loop: every
registered name is SERVING, the rest fall back to the initial table. -/
theorem startTable_lookup (services : List String) (m : String → Option ServingStatus)
    (name : String) :
    (services.foldl (fun acc n => setServingStatus acc n ServingStatus.serving) m) name
      = if name ∈ services then some ServingStatus.serving else m name := by
  induction services generalizing m with
  | nil => simp
  | cons n rest ih =>
      simp only [List.foldl_cons, ih]
      by_cases hmem : name ∈ rest
      · simp [hmem]
      · by_cases hn : name = n
        · simp [hmem, hn, setServingStatus]
        · simp [hmem, hn, setServingStatus]

/-- C5: on the success path of the gRPC `Start`, the serve loop is the last
event of the trace, started exactly once; every registered service name is
marked SERVING exactly once, strictly earlier in the trace; afterwards
`Check` answers SERVING for every registered name and NotFound for an
unregistered one. -/
theorem C5_marking_before_serve (services : List String) (hnd : services.Nodup)
    (name : String) :
    (grpcStartTrace services).getLast? = some GEvent.serveStart
    ∧ (grpcStartTrace services).count GEvent.serveStart = 1
    ∧ (name ∈ services → (grpcStartTrace services).count (GEvent.markServing name) = 1)
    ∧ (name ∈ services →
        healthCheck (startHealthTable services) name = CheckResult.status ServingStatus.serving)
    ∧ (name ∉ services → healthCheck (startHealthTable services) name = CheckResult.notFound) := by
  refine ⟨?_, ?_, ?_, ?_, ?_⟩
  · rw [grpcStartTrace, List.getLast?_concat]
  · simp [grpcStartTrace, List.count_append, serveStart_count_flatMap]
  · intro hmem
    have h1 := markServing_count_flatMap services name
    have h2 := List.count_eq_one_of_mem hnd hmem
    simp [grpcStartTrace, List.count_append, h1, h2]
  · intro hmem
    simp [healthCheck, startHealthTable, startTable_lookup, hmem]
  · intro hmem
    simp [healthCheck, startHealthTable, startTable_lookup, hmem]

/-- The body written by the health handler is exactly the rendering of the
JSON object with the keys `app`, `version`, `serving`, in that order, bound
to the app name, the version, and the serving flag. -/
theorem healthBody_is_renderObj (app version : String) (serving : Bool) :
    healthBody app version serving =
      renderObj [("app", JPrim.jstr app), ("version", JPrim.jstr version),
                 ("serving", JPrim.jbool serving)] := by
  have hq1 : jsonQuote "app" = "\"app\"" := by decide
  have hq2 : jsonQuote "version" = "\"version\"" := by decide
  have hq3 : jsonQuote "serving" = "\"serving\"" := by decide
  have h1 : ("\x7b\"app\":" : String).data
      = ("\x7b" : String).data ++ ("\"app\"" : String).data ++ (":" : String).data := by decide
  have h2 : (",\"version\":" : String).data
      = ("," : String).data ++ ("\"version\"" : String).data ++ (":" : String).data := by decide
  have h3 : (",\"serving\":" : String).data
      = ("," : String).data ++ ("\"serving\"" : String).data ++ (":" : String).data := by decide
  apply strOfDataEq
  simp [healthBody, renderObj, joinComma, renderPrim, hq1, hq2, hq3,
    strDataAppend, h1, h2, h3, List.append_assoc]

/-- C6: the health endpoint's response is the JSON object
`("app", "version", "serving")` with status 200 when serving and 503
otherwise; `New` without options mounts the health handler (app name
`"kit"`) as the root handler, and with a primary handler plus a configured
sub-path it builds a mux serving the primary handler at `"/"` and the health
handler at the sub-path; the running default server answers `200` with body
`("app": "kit", "version": "", "serving": true)`. -/
theorem C6_health_endpoint :
    (∀ (h : HealthOptions) (running : Bool),
      healthHandlerResponse h running =
        { status := if running then 200 else 503
          contentType := "application/json"
          body := renderObj [("app", JPrim.jstr h.appName), ("version", JPrim.jstr h.version),
                             ("serving", JPrim.jbool running)] })
    ∧ Except.map (fun s : Server => s.srvHandler) (New [])
        = Except.ok (some (Handler.base (BaseHandler.health { appName := "kit" })))
    ∧ healthHandlerResponse { appName := "kit" } true
        = { status := 200, contentType := "application/json"
            body := "\x7b\"app\":\"kit\",\"version\":\"\",\"serving\":true\x7d" }
    ∧ healthHandlerResponse { appName := "kit" } false
        = { status := 503, contentType := "application/json"
            body := "\x7b\"app\":\"kit\",\"version\":\"\",\"serving\":false\x7d" }
    ∧ Except.map (fun s : Server => s.srvHandler)
        (New [HTTPOption.withHandler (BaseHandler.user 7),
              HTTPOption.withHealth { path := "/healthz", appName := "test", version := "x" }])
        = Except.ok (some (Handler.mux
            [("/", BaseHandler.user 7),
             ("/healthz", BaseHandler.health { path := "/healthz", appName := "test", version := "x" })]))
    ∧ serveMuxResolve
        [("/", BaseHandler.user 7),
         ("/healthz", BaseHandler.health { path := "/healthz", appName := "test", version := "x" })]
        "/healthz"
        = some (BaseHandler.health { path := "/healthz", appName := "test", version := "x" })
    ∧ serveMuxResolve
        [("/", BaseHandler.user 7),
         ("/healthz", BaseHandler.health { path := "/healthz", appName := "test", version := "x" })]
        "/articles"
        = some (BaseHandler.user 7) := by
  refine ⟨?_, rfl, by decide, by decide, rfl, by decide, by decide⟩
  intro h running
  simp [healthHandlerResponse, healthBody_is_renderObj]

/-- C5 (witness): two registered services; the registered one is marked once
and checks SERVING, an unregistered name checks NotFound. -/
theorem C5_marking_before_serve_witness :
    ((["articles", "health"] : List String).Nodup)
    ∧ (grpcStartTrace ["articles", "health"]).count (GEvent.markServing "articles") = 1
    ∧ healthCheck (startHealthTable ["articles", "health"]) "articles"
        = CheckResult.status ServingStatus.serving
    ∧ healthCheck (startHealthTable ["articles", "health"]) "unregistered"
        = CheckResult.notFound :=
  ⟨by decide,
   (C5_marking_before_serve ["articles", "health"] (by decide) "articles").2.2.1 (by decide),
   (C5_marking_before_serve ["articles", "health"] (by decide) "articles").2.2.2.1 (by decide),
   (C5_marking_before_serve ["articles", "health"] (by decide) "unregistered").2.2.2.2
     (by decide)⟩

mutual

/-- `bindEnvs` on one field binds exactly the dot-joined field keys of its
leaf paths, below the accumulated parts. -/
theorem bindEnvsField_spec (parts : List String) (f : GoField) :
    bindEnvsField parts f =
      (leafPathsField f).map
        (fun p => String.intercalate "." (parts ++ p.map (fun nt => fieldKey nt.1 nt.2))) := by
  cases f with
  | leaf n t => simp [bindEnvsField, leafPathsField]
  | node n t fs =>
      rw [bindEnvsField, bindEnvsFields_spec (parts ++ [fieldKey n t]) fs]
      simp [leafPathsField, List.map_map, Function.comp, List.append_assoc]

/-- `bindEnvs` on a field list binds exactly the dot-joined field keys of all
its leaf paths, below the accumulated parts. -/
theorem bindEnvsFields_spec (parts : List String) (fs : GoFields) :
    bindEnvsFields parts fs =
      (leafPathsFields fs).map
        (fun p => String.intercalate "." (parts ++ p.map (fun nt => fieldKey nt.1 nt.2))) := by
  cases fs with
  | nil => simp [bindEnvsFields, leafPathsFields]
  | cons f rest =>
      rw [bindEnvsFields, bindEnvsField_spec parts f, bindEnvsFields_spec parts rest]
      simp [leafPathsFields]

end

/-- C8: the keys `bindEnvs` binds are exactly, for every leaf field path,
the dot-join of the per-field keys, each key being the `mapstructure` tag
when present and the first-letter-lowercased field name otherwise; the env
prefix has its hyphens stripped and the environment variable name has every
dot turned into an underscore.  Concretely, the repository's own test struct
binds `log.level` and `log.envTest`, read from `TEST_LOG_LEVEL` and
`TEST_LOG_ENVTEST`, and a hyphenated `new-project` yields the prefix
`NEWPROJECT`. -/
theorem C8_env_binding (fs : GoFields) (name key : String) :
    bindEnvsFields [] fs = (leafPathsFields fs).map specKeyOfPath
    ∧ ((envPrefixOf name).data.all (fun c => c ≠ '-')) = true
    ∧ ((viperEnvVarName name key).data.all (fun c => c ≠ '.')) = true
    ∧ bindEnvsFields [] testConfigFields
        = ["log.verbose", "log.console", "log.level", "log.name", "log.customTag", "log.envTest"]
    ∧ viperEnvVarName "test" "log.envTest" = "TEST_LOG_ENVTEST"
    ∧ viperEnvVarName "new-project" "log.level" = "NEWPROJECT_LOG_LEVEL" := by
  refine ⟨?_, ?_, ?_, by decide, by decide, by decide⟩
  · rw [bindEnvsFields_spec]
    simp [specKeyOfPath, fieldKey]
  · simp only [envPrefixOf, stripHyphens, dataMk, List.all_eq_true]
    intro c hc
    simpa using (List.mem_filter.mp hc).2
  · simp only [viperEnvVarName, dotsToUnderscores, dataMk, List.all_eq_true]
    intro c hc
    obtain ⟨a, _, rfl⟩ := List.mem_map.mp hc
    by_cases h : a = '.'
    · simp [h]
    · simp [h]

/-- C9: `ReadInConfig` treats a missing configuration file as success — once
the options and `bindEnvs` have succeeded, a `ConfigFileNotFoundError` from
the file read falls through to the unmarshal step, whose result (nil on
success) is returned — while any other file-read error is returned to the
caller. -/
theorem C9_missing_config_file (optResults : List (Option GoError)) (unm : Option GoError)
    (e : GoError) (hopts : runOpts optResults = none) :
    ReadInConfig optResults none FileReadResult.configFileNotFound unm = unm
    ∧ ReadInConfig optResults none (FileReadResult.failed e) unm = some e := by
  simp [ReadInConfig, hopts]

/-- C9 (witness): two succeeding options; the missing file falls through to a
succeeding unmarshal and the call returns nil, while a permission error from
the file read is returned. -/
theorem C9_missing_config_file_witness :
    ReadInConfig [none, none] none FileReadResult.configFileNotFound none = none
    ∧ ReadInConfig [none, none] none (FileReadResult.failed (GoError.readErr "denied")) none
        = some (GoError.readErr "denied") :=
  C9_missing_config_file [none, none] none (GoError.readErr "denied") rfl

/-- The option fold leaves the handler field nil when no `WithHandler`
option occurs. -/
theorem foldl_handler_none (opts : List HTTPOption) (s : Server) (hs : s.handler = none)
    (hno : ∀ hv, HTTPOption.withHandler hv ∉ opts) :
    (opts.foldl applyOpt s).handler = none := by
  induction opts generalizing s with
  | nil => simpa using hs
  | cons o rest ih =>
      simp only [List.foldl_cons]
      refine ih (applyOpt s o) ?_ (fun hv hmem => hno hv (List.mem_cons_of_mem _ hmem))
      cases o with
      | withAddr a => simpa [applyOpt] using hs
      | withLogger => simpa [applyOpt] using hs
      | withHandler hv => exact absurd (List.mem_cons_self _ _) (hno hv)
      | withHealth ho => simpa [applyOpt] using hs
      | withStopTimeout d => simpa [applyOpt] using hs

/-- C10: when the options configure a non-empty health path but supply no
primary handler, `New` panics registering the nil handler at the root
pattern (`"http: nil handler"`) — a non-nil primary handler is a
precondition for a health sub-path. -/
theorem C10_nil_handler_panics (opts : List HTTPOption)
    (hno : ∀ hv, HTTPOption.withHandler hv ∉ opts)
    (hpath : (foldOpts opts).healthOpt.path ≠ "") :
    New opts = Except.error "http: nil handler" := by
  have hh : (foldOpts opts).handler = none :=
    foldl_handler_none opts initServer rfl hno
  simp [New, hh, hpath, muxHandle]

/-- C10 (witness): configuring only a health path makes `New` panic with the
nil-handler message. -/
theorem C10_nil_handler_panics_witness :
    New [HTTPOption.withHealth { path := "/health", appName := "svc" }]
      = Except.error "http: nil handler" :=
  C10_nil_handler_panics _ (fun hv hmem => by simp at hmem) (by decide)

end Gokit
